import Mathlib

/-!
# URL shortener: a shallow embedding of `url-shortener.go`

The Go program keeps one SQLite table `urls(code TEXT PRIMARY KEY,
original_url TEXT NOT NULL)`, generates random six-rune codes and serves two
HTTP handlers.  Here the table is a list of rows, the global `math/rand`
source is a stream of raw draws, and every call into a library that writes the
HTTP response is recorded as a constructor of `Response`.

Things that live outside the repository are inputs of the model:

* the JSON decoder (`json.NewDecoder(r.Body).Decode(&req)`) is the parameter
  `dec`, mapping the raw body to either an error or a `requestBody`;
* `url.Parse`, which `http.Redirect` consults, is the parameter `parse`,
  mapping a URL to either an error or the `Scheme` and `Host` it finds;
* a failure reported by the SQLite driver for a statement (disk error, locked
  database, closed handle ...) is an optional message handed to the statement;
  a statement that fails this way leaves the table as it was;
* the unbounded `for` loop of `shortenHandler` is run with fuel; `none` means
  that the loop has not finished within the fuel.
-/

namespace URLShortener

/-! ## Constants and wire types -/

def shortURLLen : Nat := 6

def baseURL : String := "http://localhost:8080/"

def StatusOK : Nat := 200
def StatusFound : Nat := 302
def StatusBadRequest : Nat := 400
def StatusNotFound : Nat := 404
def StatusMethodNotAllowed : Nat := 405
def MethodPost : String := "POST"

structure requestBody where
  URL : String
deriving DecidableEq, Repr

structure responseBody where
  ShortURL : String
deriving DecidableEq, Repr

/-- The alphabet `chars`: the runes of the 62-character literal of the source. -/
def chars : List Char :=
  "abcdefghijklmnopqrstuvwxyzABCDEFGHIJKLMNOPQRSTUVWXYZ0123456789".toList

/-! ## Strings -/

/-- Go `strings.HasPrefix(s, pre)`. -/
def HasPrefix (s pre : String) : Bool :=
  pre.data.isPrefixOf s.data

/-- Go `strings.TrimPrefix(s, pre)`: `s` without the leading `pre` when it has
one, `s` itself otherwise. -/
def TrimPrefix (s pre : String) : String :=
  if HasPrefix s pre then String.mk (s.data.drop pre.data.length) else s

/-! ## The random source -/

/-- The global `math/rand` source: the stream of raw draws still to come. -/
abbrev Rand := Nat → Nat

/-- Go `rand.Intn(n)` for `n > 0`: consumes one draw and reduces it into
`[0, n)`; every value of `[0, n)` is the image of some draw. -/
def Intn (rnd : Rand) (n : Nat) : Nat × Rand :=
  (rnd 0 % n, fun i => rnd (i + 1))

/-- Indexing `chars[k]`.  Go panics when `k` is out of range; the model reads
the zero rune there, which is not a member of `chars`. -/
def runeAt (cs : List Char) (k : Nat) : Char :=
  cs.getD k (Char.ofNat 0)

/-- The source function `generateShortCode`: a slice of `shortURLLen` zero runes
whose positions are overwritten, in order, by `chars[rand.Intn(len(chars))]`.
Returns the code and the random source after the six draws. -/
def generateShortCode (rnd : Rand) : String × Rand :=
  let start : List Char × Rand := (List.replicate shortURLLen (Char.ofNat 0), rnd)
  let fin := (List.range shortURLLen).foldl
    (fun (st : List Char × Rand) (i : Nat) =>
      let d := Intn st.2 chars.length
      (st.1.set i (runeAt chars d.1), d.2))
    start
  (String.mk fin.1, fin.2)

/-! ## The table `urls` -/

/-- Rows `(code, original_url)` of the table `urls`, in insertion order. -/
abbrev Store := List (String × String)

/-- Errors returned by `database/sql`. -/
inductive DbError where
  /-- The PRIMARY KEY constraint on `code` rejected the row. -/
  | uniqueViolation
  /-- Outcome `sql.ErrNoRows` of `QueryRow(...).Scan`. -/
  | noRows
  /-- Any other failure reported by the driver. -/
  | storage (msg : String)
deriving DecidableEq, Repr

/-- Whether `code` is the primary key of some row. -/
def isKey (rows : Store) (code : String) : Bool :=
  rows.any (fun row => row.1 == code)

/-- The statement `SELECT original_url FROM urls WHERE code = ?`: the first
matching row, if any. -/
def selectURL (rows : Store) (code : String) : Option String :=
  (rows.find? (fun row => row.1 == code)).map (fun row => row.2)

/-- The source function `insertURL`: `INSERT INTO urls (code, original_url)
VALUES (?, ?)`.  Returns the Go `error` (`none` is `nil`) and the table
afterwards. -/
def insertURL (fault : Option String) (rows : Store) (code url : String) :
    Option DbError × Store :=
  match fault with
  | some msg => (some (DbError.storage msg), rows)
  | none =>
    if isKey rows code then (some DbError.uniqueViolation, rows)
    else (none, rows ++ [(code, url)])

/-- The source function `getOriginalURL`: returns `(url, err)`; `url` stays the
empty string when `Scan` fails. -/
def getOriginalURL (fault : Option String) (rows : Store) (code : String) :
    String × Option DbError :=
  match fault with
  | some msg => ("", some (DbError.storage msg))
  | none =>
    match selectURL rows code with
    | some url => (url, none)
    | none => ("", some DbError.noRows)

/-! ## HTTP -/

structure Request where
  method : String
  path : String
  body : String
deriving DecidableEq, Repr

/-- What a handler writes, recorded as the library call that writes it. -/
inductive Response where
  /-- The call `http.Error(w, msg, code)`. -/
  | httpError (msg : String) (code : Nat)
  /-- Header `Content-Type: application/json` followed by
  `json.NewEncoder(w).Encode(resp)`; no status is set, so it is 200. -/
  | json (resp : responseBody)
  /-- The call `http.Redirect(w, r, url, code)`. -/
  | redirect (url : String) (code : Nat)
deriving DecidableEq, Repr

/-- The status code of a response. -/
def Response.status : Response → Nat
  | Response.httpError _ code => code
  | Response.json _ => StatusOK
  | Response.redirect _ code => code

/-- The process state shared by the handlers: the table behind `db` and the
global random source. -/
structure World where
  rows : Store
  rnd : Rand

/-- The `for` loop of `shortenHandler`: generate, insert, leave on `err == nil`,
go round again on any other `err`.  `faults j` is the driver failure (if any)
met by the `j`-th insert from here on. -/
def shortenLoop : Nat → (Nat → Option String) → World → String → Option (String × World)
  | 0, _, _, _ => none
  | fuel + 1, faults, w, url =>
    let g := generateShortCode w.rnd
    let ins := insertURL (faults 0) w.rows g.1 url
    match ins.1 with
    | none => some (g.1, { rows := ins.2, rnd := g.2 })
    | some _ => shortenLoop fuel (fun j => faults (j + 1)) { rows := ins.2, rnd := g.2 } url

/-- The source function `shortenHandler`. -/
def shortenHandler (dec : String → Except String requestBody)
    (faults : Nat → Option String) (fuel : Nat) (w : World) (r : Request) :
    Option (Response × World) :=
  if r.method != MethodPost then
    some (Response.httpError "Only POST method is allowed" StatusMethodNotAllowed, w)
  else
    match dec r.body with
    | Except.error _ =>
      some (Response.httpError "Invalid request body or URL" StatusBadRequest, w)
    | Except.ok req =>
      if !HasPrefix req.URL "http" then
        some (Response.httpError "Invalid request body or URL" StatusBadRequest, w)
      else
        match shortenLoop fuel faults w req.URL with
        | none => none
        | some (code, w') => some (Response.json { ShortURL := baseURL ++ code }, w')

/-- The source function `redirectHandler`. -/
def redirectHandler (fault : Option String) (w : World) (r : Request) : Response × World :=
  let code := TrimPrefix r.path "/"
  let res := getOriginalURL fault w.rows code
  match res.2 with
  | some _ => (Response.httpError "URL not found" StatusNotFound, w)
  | none => (Response.redirect res.1 StatusFound, w)

/-- The `k`-th candidate code of a random source: what the `k`-th call of
`generateShortCode` from now on returns. -/
def candidate (rnd : Rand) (k : Nat) : String :=
  (generateShortCode (fun i => rnd (i + shortURLLen * k))).1

/-! ## The redirect target written by `net/http` -/

/-- Go `path.Split(p)`, first component: `p` up to and including its last
slash, empty when `p` has no slash. -/
def pathSplitDir (p : List Char) : List Char :=
  (p.reverse.dropWhile (fun c => c != '/')).reverse

/-- The elements of a path: the runs of characters between its slashes. -/
def pathElements : List Char → List (List Char)
  | [] => [[]]
  | c :: cs =>
    match pathElements cs with
    | [] => [[]]
    | seg :: rest => if c = '/' then [] :: seg :: rest else (c :: seg) :: rest

/-- One round of Go `path.Clean` over an element, `kept` holding the elements
written so far, last one first: an empty element and `.` are skipped; `..`
removes the last real element, is dropped at the root of a rooted path, and is
written out when an unrooted path has nothing left to remove. -/
def cleanElement (rooted : Bool) (kept : List (List Char)) (seg : List Char) :
    List (List Char) :=
  if seg = [] ∨ seg = ['.'] then kept
  else if seg = ['.', '.'] then
    match kept with
    | [] => if rooted then [] else [seg]
    | top :: rest => if top = ['.', '.'] then seg :: kept else rest
  else seg :: kept

/-- Go `path.Clean(p)`. -/
def pathClean (p : List Char) : List Char :=
  let rooted := p.head? == some '/'
  let kept := (pathElements p).foldl (cleanElement rooted) []
  let out := (if rooted then ['/'] else []) ++ List.intercalate ['/'] kept.reverse
  if out = [] then ['.'] else out

/-- The bytes of the UTF-8 encoding of the code point `n`. -/
def utf8Bytes (n : Nat) : List Nat :=
  if n < 128 then [n]
  else if n < 2048 then [192 + n / 64, 128 + n % 64]
  else if n < 65536 then [224 + n / 4096, 128 + n / 64 % 64, 128 + n % 64]
  else [240 + n / 262144, 128 + n / 4096 % 64, 128 + n / 64 % 64, 128 + n % 64]

/-- A hexadecimal digit in lower case, as `strconv.AppendInt(b, v, 16)` writes it. -/
def hexDigit (n : Nat) : Char :=
  "0123456789abcdef".data.getD n '0'

/-- The function `hexEscapeNonASCII` of `net/http`: every byte from 0x80 upwards
is replaced by `%` and its two hexadecimal digits, the other bytes are kept. -/
def hexEscapeNonASCII (s : List Char) : List Char :=
  s.flatMap (fun c =>
    if c.toNat < 128 then [c]
    else (utf8Bytes c.toNat).flatMap (fun b => ['%', hexDigit (b / 16), hexDigit (b % 16)]))

/-- The value that `http.Redirect(w, r, url, code)` sets as the `Location`
header, for a request with `r.URL.Path = oldpath`.  When `url.Parse(url)`
succeeds with an empty `Scheme` and an empty `Host`, the url is taken relative
to the request: it is prefixed with the directory of `oldpath` unless it starts
with a slash, its part before the first `?` is cleaned with `path.Clean` (a
trailing slash is kept), and the query is put back.  In every case the result
goes through `hexEscapeNonASCII`. -/
def redirectLocation (parse : String → Except String (String × String))
    (oldpath url : String) : String :=
  let target : List Char :=
    match parse url with
    | Except.error _ => url.data
    | Except.ok (scheme, host) =>
      if scheme == "" && host == "" then
        let old := if oldpath == "" then ['/'] else oldpath.data
        let abs := if url.data.head? != some '/' then pathSplitDir old ++ url.data else url.data
        let cut := abs.span (fun c => c != '?')
        let trailing := cut.1.getLast? == some '/'
        let cleaned := pathClean cut.1
        let slashed :=
          if trailing && cleaned.getLast? != some '/' then cleaned ++ ['/'] else cleaned
        slashed ++ cut.2
      else url.data
  String.mk (hexEscapeNonASCII target)

/-- The `Location` header of a response to the request `r`: set by
`http.Redirect`, absent from the other responses. -/
def Response.location (parse : String → Except String (String × String)) (r : Request) :
    Response → Option String
  | Response.redirect url _ => some (redirectLocation parse r.path url)
  | Response.httpError _ _ => none
  | Response.json _ => none

/-! ## Code generation -/

theorem chars_length : chars.length = 62 := by decide

theorem generateShortCode_eq (rnd : Rand) :
    generateShortCode rnd =
      (String.mk [runeAt chars (rnd 0 % 62), runeAt chars (rnd 1 % 62),
                  runeAt chars (rnd 2 % 62), runeAt chars (rnd 3 % 62),
                  runeAt chars (rnd 4 % 62), runeAt chars (rnd 5 % 62)],
       fun i => rnd (i + 6)) := by
  rfl

theorem Intn_lt (rnd : Rand) (n : Nat) (hn : 0 < n) : (Intn rnd n).1 < n :=
  Nat.mod_lt _ hn

theorem runeAt_mem (cs : List Char) (k : Nat) (hk : k < cs.length) : runeAt cs k ∈ cs := by
  unfold runeAt
  rw [List.getD_eq_getElem cs (Char.ofNat 0) hk]
  exact List.getElem_mem hk

theorem zero_rune_not_mem_chars : Char.ofNat 0 ∉ chars := by decide

theorem chars_alphanumeric : ∀ c, c ∈ chars → c.isAlphanum = true := by decide

theorem runeAt_mod_mem (x : Nat) : runeAt chars (x % 62) ∈ chars :=
  runeAt_mem chars (x % 62) (by rw [chars_length]; exact Nat.mod_lt _ (by decide))

/-- C2: whatever the random source yields, every index `rand.Intn(len(chars))`
is within the bounds of `chars` (which has 62 runes, all of them letters or
digits), and `generateShortCode` returns a string of exactly `shortURLLen = 6`
characters, each of them a member of `chars`. -/
theorem generateShortCode_length_and_alphabet (rnd : Rand) :
    chars.length = 62 ∧ shortURLLen = 6 ∧
    (∀ c, c ∈ chars → c.isAlphanum = true) ∧
    (∀ r : Rand, (Intn r chars.length).1 < chars.length) ∧
    (generateShortCode rnd).1.length = shortURLLen ∧
    (∀ c, c ∈ (generateShortCode rnd).1.data → c ∈ chars) := by
  refine ⟨chars_length, rfl, chars_alphanumeric,
    fun r => Intn_lt r _ (by rw [chars_length]; decide), ?_, ?_⟩
  · rw [generateShortCode_eq]; rfl
  · intro c hc
    rw [generateShortCode_eq] at hc
    simp only [List.mem_cons, List.mem_singleton] at hc
    have hnil : c ∉ ([] : List Char) := List.not_mem_nil c
    rcases hc with h | h | h | h | h | h | h
    · rw [h]; exact runeAt_mod_mem _
    · rw [h]; exact runeAt_mod_mem _
    · rw [h]; exact runeAt_mod_mem _
    · rw [h]; exact runeAt_mod_mem _
    · rw [h]; exact runeAt_mod_mem _
    · rw [h]; exact runeAt_mod_mem _
    · exact absurd h hnil

theorem generateShortCode_snd (rnd : Rand) :
    (generateShortCode rnd).2 = fun i => rnd (i + shortURLLen) := by
  rw [generateShortCode_eq]; rfl

theorem candidate_zero (rnd : Rand) : candidate rnd 0 = (generateShortCode rnd).1 := by
  rfl

theorem candidate_succ (rnd : Rand) (k : Nat) :
    candidate (generateShortCode rnd).2 k = candidate rnd (k + 1) := by
  rw [generateShortCode_snd]
  unfold candidate
  have h : (fun i => rnd (i + shortURLLen * k + shortURLLen)) =
      (fun i => rnd (i + shortURLLen * (k + 1))) := by
    funext i
    congr 1
  exact congrArg (fun f => (generateShortCode f).1) h

/-! ## The table -/

theorem insertURL_ok_iff (fault : Option String) (rows : Store) (code url : String) :
    (insertURL fault rows code url).1 = none ↔ fault = none ∧ isKey rows code = false := by
  unfold insertURL
  cases fault with
  | some msg => simp
  | none =>
    cases h : isKey rows code <;> simp

theorem insertURL_ok_rows (fault : Option String) (rows : Store) (code url : String)
    (h : (insertURL fault rows code url).1 = none) :
    (insertURL fault rows code url).2 = rows ++ [(code, url)] := by
  obtain ⟨hf, hk⟩ := (insertURL_ok_iff fault rows code url).1 h
  subst hf
  simp [insertURL, hk]

theorem insertURL_err_rows (fault : Option String) (rows : Store) (code url : String)
    (e : DbError) (h : (insertURL fault rows code url).1 = some e) :
    (insertURL fault rows code url).2 = rows := by
  unfold insertURL at h ⊢
  cases fault with
  | some msg => rfl
  | none =>
    cases hk : isKey rows code
    · simp [hk] at h
    · simp

theorem selectURL_append_left (rows more : Store) (code url : String)
    (h : selectURL rows code = some url) : selectURL (rows ++ more) code = some url := by
  unfold selectURL at h ⊢
  rw [List.find?_append]
  cases hf : rows.find? (fun row => row.1 == code) with
  | none => simp [hf] at h
  | some row => simpa [hf] using h

theorem find_none_of_not_isKey (rows : Store) (code : String) (h : isKey rows code = false) :
    rows.find? (fun row => row.1 == code) = none := by
  unfold isKey at h
  rw [List.find?_eq_none]
  intro x hx
  have := (List.any_eq_false.1 h) x hx
  simpa using this

theorem selectURL_none_of_not_isKey (rows : Store) (code : String)
    (h : isKey rows code = false) : selectURL rows code = none := by
  unfold selectURL
  rw [find_none_of_not_isKey rows code h]; rfl

theorem selectURL_append_new (rows : Store) (code url : String)
    (h : isKey rows code = false) : selectURL (rows ++ [(code, url)]) code = some url := by
  unfold selectURL
  rw [List.find?_append, find_none_of_not_isKey rows code h]
  simp

theorem isKey_append_new (rows : Store) (code url : String) :
    isKey (rows ++ [(code, url)]) code = true := by
  simp [isKey]

/-! ## Strings -/

theorem append_left_cancel (a b c : String) (h : a ++ b = a ++ c) : b = c := by
  have hd := congrArg String.data h
  rw [String.data_append, String.data_append] at hd
  exact String.ext (List.append_cancel_left hd)

theorem TrimPrefix_slash (c : String) : TrimPrefix ("/" ++ c) "/" = c := by
  have hd : ("/" ++ c).data = '/' :: c.data := by
    rw [String.data_append]; rfl
  unfold TrimPrefix HasPrefix
  rw [hd]
  have hs : ("/" : String).data = ['/'] := rfl
  rw [hs]
  simp [List.isPrefixOf]

/-! ## The loop of `shortenHandler` -/

theorem shortenLoop_succ_ok (fuel : Nat) (faults : Nat → Option String) (w : World)
    (url : String)
    (h : (insertURL (faults 0) w.rows (generateShortCode w.rnd).1 url).1 = none) :
    shortenLoop (fuel + 1) faults w url =
      some ((generateShortCode w.rnd).1,
        { rows := w.rows ++ [((generateShortCode w.rnd).1, url)],
          rnd := (generateShortCode w.rnd).2 }) := by
  have hr := insertURL_ok_rows _ _ _ _ h
  simp only [shortenLoop, h, hr]

theorem shortenLoop_succ_err (fuel : Nat) (faults : Nat → Option String) (w : World)
    (url : String) (e : DbError)
    (h : (insertURL (faults 0) w.rows (generateShortCode w.rnd).1 url).1 = some e) :
    shortenLoop (fuel + 1) faults w url =
      shortenLoop fuel (fun j => faults (j + 1))
        { rows := w.rows, rnd := (generateShortCode w.rnd).2 } url := by
  have hr := insertURL_err_rows _ _ _ _ e h
  simp only [shortenLoop, h, hr]

/-- Whatever the loop returns was inserted by its last round: the code was not
a key before, and the table has grown by exactly that row. -/
theorem shortenLoop_some (fuel : Nat) :
    ∀ (faults : Nat → Option String) (w : World) (url code : String) (w' : World),
      shortenLoop fuel faults w url = some (code, w') →
      isKey w.rows code = false ∧ w'.rows = w.rows ++ [(code, url)] := by
  induction fuel with
  | zero => intro faults w url code w' h; simp [shortenLoop] at h
  | succ n ih =>
    intro faults w url code w' h
    cases hi : (insertURL (faults 0) w.rows (generateShortCode w.rnd).1 url).1 with
    | none =>
      rw [shortenLoop_succ_ok n faults w url hi] at h
      simp only [Option.some.injEq, Prod.mk.injEq] at h
      obtain ⟨hc, hw⟩ := h
      subst hc; subst hw
      exact ⟨((insertURL_ok_iff _ _ _ _).1 hi).2, rfl⟩
    | some e =>
      rw [shortenLoop_succ_err n faults w url e hi] at h
      exact ih _ { rows := w.rows, rnd := (generateShortCode w.rnd).2 } _ _ _ h

/-- The loop leaves at the first round whose insert succeeds: if round `k` is
the first one that meets no driver failure and draws a code that is not a key,
any fuel above `k` returns that code. -/
theorem shortenLoop_first (k : Nat) :
    ∀ (fuel : Nat) (faults : Nat → Option String) (w : World) (url : String),
      k < fuel →
      faults k = none → isKey w.rows (candidate w.rnd k) = false →
      (∀ j, j < k → ¬ (faults j = none ∧ isKey w.rows (candidate w.rnd j) = false)) →
      shortenLoop fuel faults w url =
        some (candidate w.rnd k,
          { rows := w.rows ++ [(candidate w.rnd k, url)],
            rnd := fun i => w.rnd (i + shortURLLen * (k + 1)) }) := by
  induction k with
  | zero =>
    intro fuel faults w url hfuel hf hk _
    obtain ⟨n, rfl⟩ : ∃ n, fuel = n + 1 := ⟨fuel - 1, by omega⟩
    rw [candidate_zero] at hk ⊢
    have hi := (insertURL_ok_iff (faults 0) w.rows (generateShortCode w.rnd).1 url).2 ⟨hf, hk⟩
    rw [shortenLoop_succ_ok n faults w url hi, generateShortCode_snd]
    rfl
  | succ k ih =>
    intro fuel faults w url hfuel hf hk hleast
    obtain ⟨n, rfl⟩ : ∃ n, fuel = n + 1 := ⟨fuel - 1, by omega⟩
    have h0 := hleast 0 (Nat.succ_pos k)
    rw [candidate_zero, ← insertURL_ok_iff (faults 0) w.rows _ url] at h0
    cases hi : (insertURL (faults 0) w.rows (generateShortCode w.rnd).1 url).1 with
    | none => exact absurd hi h0
    | some e =>
      rw [shortenLoop_succ_err n faults w url e hi]
      have := ih n (fun j => faults (j + 1))
        { rows := w.rows, rnd := (generateShortCode w.rnd).2 } url (by omega) hf
        (by simpa [candidate_succ] using hk)
        (by
          intro j hj
          have := hleast (j + 1) (by omega)
          simpa [candidate_succ] using this)
      rw [this]
      simp only [candidate_succ]
      have hr : (fun i => (generateShortCode w.rnd).2 (i + shortURLLen * (k + 1))) =
          (fun i => w.rnd (i + shortURLLen * (k + 1 + 1))) := by
        rw [generateShortCode_snd]
        funext i
        congr 1
      rw [hr]

/-! ## The handlers -/

theorem shortenHandler_valid (dec : String → Except String requestBody)
    (faults : Nat → Option String) (fuel : Nat) (w : World) (r : Request) (u : String)
    (hm : r.method = MethodPost) (hd : dec r.body = Except.ok { URL := u })
    (hp : HasPrefix u "http" = true) :
    shortenHandler dec faults fuel w r =
      (shortenLoop fuel faults w u).map
        (fun p => (Response.json { ShortURL := baseURL ++ p.1 }, p.2)) := by
  unfold shortenHandler
  simp only [hm, hd, hp, bne_self_eq_false, Bool.false_eq_true, if_false, Bool.not_true]
  cases shortenLoop fuel faults w u with
  | none => rfl
  | some p => rfl

theorem shortenHandler_valid_some (dec : String → Except String requestBody)
    (faults : Nat → Option String) (fuel : Nat) (w : World) (r : Request) (u : String)
    (hm : r.method = MethodPost) (hd : dec r.body = Except.ok { URL := u })
    (hp : HasPrefix u "http" = true) (resp : Response) (w' : World)
    (h : shortenHandler dec faults fuel w r = some (resp, w')) :
    ∃ code, shortenLoop fuel faults w u = some (code, w') ∧
      resp = Response.json { ShortURL := baseURL ++ code } := by
  rw [shortenHandler_valid dec faults fuel w r u hm hd hp] at h
  cases hl : shortenLoop fuel faults w u with
  | none => rw [hl] at h; simp at h
  | some p =>
    rw [hl] at h
    simp only [Option.map_some', Option.some.injEq, Prod.mk.injEq] at h
    exact ⟨p.1, by rw [← h.2], h.1.symm⟩

theorem shortenHandler_not_post (dec : String → Except String requestBody)
    (faults : Nat → Option String) (fuel : Nat) (w : World) (r : Request)
    (hm : r.method ≠ MethodPost) :
    shortenHandler dec faults fuel w r =
      some (Response.httpError "Only POST method is allowed" StatusMethodNotAllowed, w) := by
  unfold shortenHandler
  have : (r.method != MethodPost) = true := by simpa using hm
  simp only [this, if_true]

theorem shortenHandler_bad_body (dec : String → Except String requestBody)
    (faults : Nat → Option String) (fuel : Nat) (w : World) (r : Request)
    (hm : r.method = MethodPost)
    (hbad : (∃ e, dec r.body = Except.error e) ∨
      (∃ q, dec r.body = Except.ok q ∧ HasPrefix q.URL "http" = false)) :
    shortenHandler dec faults fuel w r =
      some (Response.httpError "Invalid request body or URL" StatusBadRequest, w) := by
  unfold shortenHandler
  simp only [hm, bne_self_eq_false, Bool.false_eq_true, if_false]
  rcases hbad with ⟨e, he⟩ | ⟨q, hq, hp⟩
  · rw [he]
  · rw [hq]; simp only [hp, Bool.not_false, if_true]

theorem redirectHandler_found (w : World) (r : Request) (u : String)
    (h : selectURL w.rows (TrimPrefix r.path "/") = some u) :
    redirectHandler none w r = (Response.redirect u StatusFound, w) := by
  simp [redirectHandler, getOriginalURL, h]

/-! ## The redirect target -/

theorem hexEscapeNonASCII_ascii (s : List Char) (h : ∀ ch, ch ∈ s → ch.toNat < 128) :
    hexEscapeNonASCII s = s := by
  induction s with
  | nil => rfl
  | cons c cs ih =>
    have hc : c.toNat < 128 := h c (List.mem_cons_self c cs)
    have hcs : hexEscapeNonASCII cs = cs := ih (fun ch hch => h ch (List.mem_cons_of_mem c hch))
    unfold hexEscapeNonASCII at hcs ⊢
    rw [List.flatMap_cons, hcs]
    simp [hc]

theorem redirectLocation_absolute (parse : String → Except String (String × String))
    (oldpath u : String) (hascii : ∀ ch, ch ∈ u.data → ch.toNat < 128)
    (habs : ∀ sch host, parse u = Except.ok (sch, host) → sch ≠ "" ∨ host ≠ "") :
    redirectLocation parse oldpath u = u := by
  have hkeep : redirectLocation parse oldpath u = String.mk (hexEscapeNonASCII u.data) := by
    unfold redirectLocation
    cases hpr : parse u with
    | error e => rfl
    | ok p =>
      obtain ⟨sch, host⟩ := p
      have hne : (sch == "" && host == "") = false := by
        rcases habs sch host hpr with hs | hh
        · simp [hs]
        · simp [hh]
      simp only [hne, Bool.false_eq_true, if_false]
  rw [hkeep, hexEscapeNonASCII_ascii u.data hascii]

/-! ## Claims about the handlers -/

/-- C1, as the claim states it, fails.  The url "httpfoo" begins with "http",
so `shortenHandler` stores it under the code "abcdef"; `redirectHandler` then
hands it to `http.Redirect`, and since `url.Parse` finds neither scheme nor
host in it the `Location` header of the 302 is "/httpfoo", not "httpfoo".
For "http://é", where `url.Parse` finds the scheme "http" and the host "é", the
`Location` header is "http://%c3%a9". -/
theorem roundtrip_target_is_rewritten :
    HasPrefix "httpfoo" "http" = true ∧
    (shortenHandler (fun _ => Except.ok { URL := "httpfoo" }) (fun _ => none) 1
        { rows := [], rnd := fun i => i }
        { method := "POST", path := "/shorten", body := "\x7b\"url\":\"httpfoo\"\x7d" }).map
      (fun p => (p.1, p.2.rows)) =
      some (Response.json { ShortURL := "http://localhost:8080/abcdef" },
        [("abcdef", "httpfoo")]) ∧
    (redirectHandler none { rows := [("abcdef", "httpfoo")], rnd := fun i => i + 6 }
        { method := "GET", path := "/abcdef", body := "" }).1 =
      Response.redirect "httpfoo" 302 ∧
    (redirectHandler none { rows := [("abcdef", "httpfoo")], rnd := fun i => i + 6 }
        { method := "GET", path := "/abcdef", body := "" }).1.location
        (fun _ => Except.ok ("", "")) { method := "GET", path := "/abcdef", body := "" } =
      some "/httpfoo" ∧
    "/httpfoo" ≠ "httpfoo" ∧
    (redirectHandler none { rows := [("abcdef", "http://é")], rnd := fun i => i + 6 }
        { method := "GET", path := "/abcdef", body := "" }).1.location
        (fun _ => Except.ok ("http", "é")) { method := "GET", path := "/abcdef", body := "" } =
      some "http://%c3%a9" ∧
    "http://%c3%a9" ≠ "http://é" := by
  decide

/-- C1, amended: round trip.  For every state and every POST whose body decodes
to a URL `u` beginning with "http", if `shortenHandler` answers with
`short_url = baseURL ++ c`, then in the resulting state a `redirectHandler`
request with path `"/" ++ c`, served by a storage engine that reports no
failure, answers with status 302 by calling `http.Redirect` with exactly `u`;
and the `Location` header of that answer is exactly `u` whenever `u` is made of
ASCII characters and `url.Parse` does not read it as a relative reference (it
fails, or finds a scheme or a host). -/
theorem shorten_then_redirect_roundtrip (dec : String → Except String requestBody)
    (parse : String → Except String (String × String))
    (faults : Nat → Option String) (fuel : Nat) (w w' : World) (r r2 : Request)
    (u c : String)
    (hm : r.method = MethodPost) (hd : dec r.body = Except.ok { URL := u })
    (hp : HasPrefix u "http" = true)
    (h : shortenHandler dec faults fuel w r =
      some (Response.json { ShortURL := baseURL ++ c }, w'))
    (hpath : r2.path = "/" ++ c) :
    (redirectHandler none w' r2).1 = Response.redirect u StatusFound ∧
    (redirectHandler none w' r2).1.status = 302 ∧
    ((∀ ch, ch ∈ u.data → ch.toNat < 128) →
      (∀ sch host, parse u = Except.ok (sch, host) → sch ≠ "" ∨ host ≠ "") →
      (redirectHandler none w' r2).1.location parse r2 = some u) := by
  obtain ⟨code, hl, hresp⟩ := shortenHandler_valid_some dec faults fuel w r u hm hd hp _ _ h
  have hc : c = code := by
    simp only [Response.json.injEq, responseBody.mk.injEq] at hresp
    exact append_left_cancel _ _ _ hresp
  subst hc
  obtain ⟨hk, hrows⟩ := shortenLoop_some fuel faults w u c w' hl
  have hsel : selectURL w'.rows (TrimPrefix r2.path "/") = some u := by
    rw [hpath, TrimPrefix_slash, hrows]
    exact selectURL_append_new w.rows c u hk
  rw [redirectHandler_found w' r2 u hsel]
  refine ⟨rfl, rfl, ?_⟩
  intro hascii habs
  show some (redirectLocation parse r2.path u) = some u
  rw [redirectLocation_absolute parse r2.path u hascii habs]

theorem shorten_then_redirect_roundtrip_witness :
    (shortenHandler (fun _ => Except.ok { URL := "http://a" }) (fun _ => none) 1
        { rows := [], rnd := fun i => i }
        { method := "POST", path := "/shorten", body := "\x7b\"url\":\"http://a\"\x7d" }).map
      (fun p => (p.1, p.2.rows)) =
      some (Response.json { ShortURL := "http://localhost:8080/abcdef" },
        [("abcdef", "http://a")]) ∧
    (redirectHandler none { rows := [("abcdef", "http://a")], rnd := fun i => i + 6 }
        { method := "GET", path := "/abcdef", body := "" }).1 =
      Response.redirect "http://a" StatusFound ∧
    (redirectHandler none { rows := [("abcdef", "http://a")], rnd := fun i => i + 6 }
        { method := "GET", path := "/abcdef", body := "" }).1.status = 302 ∧
    (redirectHandler none { rows := [("abcdef", "http://a")], rnd := fun i => i + 6 }
        { method := "GET", path := "/abcdef", body := "" }).1.location
        (fun _ => Except.ok ("http", "a")) { method := "GET", path := "/abcdef", body := "" } =
      some "http://a" :=
  have key := shorten_then_redirect_roundtrip (fun _ => Except.ok { URL := "http://a" })
    (fun _ => Except.ok ("http", "a")) (fun _ => none) 1
    { rows := [], rnd := fun i => i }
    { rows := [("abcdef", "http://a")], rnd := fun i => i + 6 }
    { method := "POST", path := "/shorten", body := "\x7b\"url\":\"http://a\"\x7d" }
    { method := "GET", path := "/abcdef", body := "" }
    "http://a" "abcdef" rfl rfl (by decide) rfl rfl
  ⟨by decide, key.1, key.2.1,
    key.2.2 (by decide) (fun sch host hpr => Or.inl (by
      have hs : sch = "http" := by
        simp only [Except.ok.injEq, Prod.mk.injEq] at hpr
        exact hpr.1.symm
      rw [hs]; decide))⟩

/-- C3: for every state and every URL `u` beginning with "http", two successive
successful `shortenHandler` requests with the same `u` return two different
codes `c1 ≠ c2`, and after the second request `getOriginalURL` (on a storage
engine that reports no failure) returns `u` for `c1` and for `c2`. -/
theorem two_shortens_distinct_codes (dec : String → Except String requestBody)
    (faults1 faults2 : Nat → Option String) (fuel1 fuel2 : Nat) (w0 w1 w2 : World)
    (r1 r2 : Request) (u c1 c2 : String)
    (hm1 : r1.method = MethodPost) (hd1 : dec r1.body = Except.ok { URL := u })
    (hm2 : r2.method = MethodPost) (hd2 : dec r2.body = Except.ok { URL := u })
    (hp : HasPrefix u "http" = true)
    (h1 : shortenHandler dec faults1 fuel1 w0 r1 =
      some (Response.json { ShortURL := baseURL ++ c1 }, w1))
    (h2 : shortenHandler dec faults2 fuel2 w1 r2 =
      some (Response.json { ShortURL := baseURL ++ c2 }, w2)) :
    c1 ≠ c2 ∧ getOriginalURL none w2.rows c1 = (u, none) ∧
      getOriginalURL none w2.rows c2 = (u, none) := by
  obtain ⟨a, hl1, hr1⟩ := shortenHandler_valid_some dec faults1 fuel1 w0 r1 u hm1 hd1 hp _ _ h1
  obtain ⟨b, hl2, hr2⟩ := shortenHandler_valid_some dec faults2 fuel2 w1 r2 u hm2 hd2 hp _ _ h2
  have ha : c1 = a := by
    simp only [Response.json.injEq, responseBody.mk.injEq] at hr1
    exact append_left_cancel _ _ _ hr1
  have hb : c2 = b := by
    simp only [Response.json.injEq, responseBody.mk.injEq] at hr2
    exact append_left_cancel _ _ _ hr2
  subst ha; subst hb
  obtain ⟨hk1, hrows1⟩ := shortenLoop_some fuel1 faults1 w0 u c1 w1 hl1
  obtain ⟨hk2, hrows2⟩ := shortenLoop_some fuel2 faults2 w1 u c2 w2 hl2
  have hs1 : selectURL w1.rows c1 = some u := by
    rw [hrows1]; exact selectURL_append_new w0.rows c1 u hk1
  refine ⟨?_, ?_, ?_⟩
  · intro heq
    rw [hrows1, ← heq, isKey_append_new] at hk2
    exact Bool.noConfusion hk2
  · have : selectURL w2.rows c1 = some u := by
      rw [hrows2]; exact selectURL_append_left _ _ _ _ hs1
    simp [getOriginalURL, this]
  · have : selectURL w2.rows c2 = some u := by
      rw [hrows2]; exact selectURL_append_new w1.rows c2 u hk2
    simp [getOriginalURL, this]

theorem two_shortens_distinct_codes_witness :
    "abcdef" ≠ "ghijkl" ∧
    getOriginalURL none [("abcdef", "http://a"), ("ghijkl", "http://a")] "abcdef" =
      ("http://a", none) ∧
    getOriginalURL none [("abcdef", "http://a"), ("ghijkl", "http://a")] "ghijkl" =
      ("http://a", none) :=
  two_shortens_distinct_codes (fun _ => Except.ok { URL := "http://a" })
    (fun _ => none) (fun _ => none) 1 1
    { rows := [], rnd := fun i => i }
    { rows := [("abcdef", "http://a")], rnd := fun i => i + 6 }
    { rows := [("abcdef", "http://a"), ("ghijkl", "http://a")], rnd := fun i => i + 6 + 6 }
    { method := "POST", path := "/shorten", body := "\x7b\"url\":\"http://a\"\x7d" }
    { method := "POST", path := "/shorten", body := "\x7b\"url\":\"http://a\"\x7d" }
    "http://a" "abcdef" "ghijkl" rfl rfl rfl rfl (by decide) rfl rfl

/-- C4: for every POST to `shortenHandler` whose body fails to decode as JSON,
or whose decoded url does not begin with "http", the response is the 400 error
and the state after the request is the state before it: nothing is inserted
and no code is drawn.  The urls `""` (empty or missing field), `"ftp://x"`
and `"not a url"` do not begin with "http". -/
theorem shorten_invalid_body_is_400 (dec : String → Except String requestBody)
    (faults : Nat → Option String) (fuel : Nat) (w : World) (r : Request)
    (hm : r.method = MethodPost)
    (hbad : (∃ e, dec r.body = Except.error e) ∨
      (∃ q, dec r.body = Except.ok q ∧ HasPrefix q.URL "http" = false)) :
    (∃ resp, shortenHandler dec faults fuel w r = some (resp, w) ∧ resp.status = 400) ∧
    HasPrefix "" "http" = false ∧ HasPrefix "ftp://x" "http" = false ∧
    HasPrefix "not a url" "http" = false := by
  refine ⟨⟨_, shortenHandler_bad_body dec faults fuel w r hm hbad, rfl⟩, ?_, ?_, ?_⟩ <;> decide

theorem shorten_invalid_body_is_400_witness :
    (∃ resp, shortenHandler (fun _ => Except.ok { URL := "ftp://x" }) (fun _ => none) 5
        { rows := [("abcdef", "http://a")], rnd := fun i => i }
        { method := "POST", path := "/shorten", body := "\x7b\"url\":\"ftp://x\"\x7d" } =
        some (resp, { rows := [("abcdef", "http://a")], rnd := fun i => i }) ∧
      resp.status = 400) ∧
    HasPrefix "" "http" = false ∧ HasPrefix "ftp://x" "http" = false ∧
    HasPrefix "not a url" "http" = false :=
  shorten_invalid_body_is_400 (fun _ => Except.ok { URL := "ftp://x" }) (fun _ => none) 5
    { rows := [("abcdef", "http://a")], rnd := fun i => i }
    { method := "POST", path := "/shorten", body := "\x7b\"url\":\"ftp://x\"\x7d" }
    rfl (Or.inr ⟨{ URL := "ftp://x" }, rfl, by decide⟩)

/-- C5: for every state and every request path `p`, if the code obtained by
stripping the leading "/" from `p` is not a key of the table, `redirectHandler`
responds with the 404 error, issues no redirect and leaves the state alone,
whatever the storage engine does. -/
theorem redirect_unknown_code_is_404 (fault : Option String) (w : World) (r : Request)
    (h : isKey w.rows (TrimPrefix r.path "/") = false) :
    redirectHandler fault w r = (Response.httpError "URL not found" StatusNotFound, w) ∧
    (redirectHandler fault w r).1.status = 404 ∧
    ∀ url code, (redirectHandler fault w r).1 ≠ Response.redirect url code := by
  have hr : redirectHandler fault w r =
      (Response.httpError "URL not found" StatusNotFound, w) := by
    cases fault with
    | some msg => simp [redirectHandler, getOriginalURL]
    | none => simp [redirectHandler, getOriginalURL, selectURL_none_of_not_isKey _ _ h]
  rw [hr]
  exact ⟨rfl, rfl, fun url code hne => Response.noConfusion hne⟩

theorem redirect_unknown_code_is_404_witness :
    redirectHandler none { rows := [("abcdef", "http://a")], rnd := fun i => i }
        { method := "GET", path := "/zzzzzz", body := "" } =
      (Response.httpError "URL not found" StatusNotFound,
        { rows := [("abcdef", "http://a")], rnd := fun i => i }) ∧
    (redirectHandler none { rows := [("abcdef", "http://a")], rnd := fun i => i }
        { method := "GET", path := "/zzzzzz", body := "" }).1.status = 404 ∧
    ∀ url code,
      (redirectHandler none { rows := [("abcdef", "http://a")], rnd := fun i => i }
        { method := "GET", path := "/zzzzzz", body := "" }).1 ≠ Response.redirect url code :=
  redirect_unknown_code_is_404 none { rows := [("abcdef", "http://a")], rnd := fun i => i }
    { method := "GET", path := "/zzzzzz", body := "" } (by decide)

/-- C9: for every request to `shortenHandler` whose method is not POST, whatever
its body and whatever the decoder would make of it, the response is the 405
error (never the 400 one) and the state is unchanged. -/
theorem shorten_non_post_is_405 (dec : String → Except String requestBody)
    (faults : Nat → Option String) (fuel : Nat) (w : World) (r : Request)
    (hm : r.method ≠ MethodPost) :
    shortenHandler dec faults fuel w r =
      some (Response.httpError "Only POST method is allowed" StatusMethodNotAllowed, w) ∧
    (Response.httpError "Only POST method is allowed" StatusMethodNotAllowed).status = 405 := by
  exact ⟨shortenHandler_not_post dec faults fuel w r hm, rfl⟩

theorem shorten_non_post_is_405_witness :
    shortenHandler (fun _ => Except.error "invalid character") (fun _ => none) 0
        { rows := [("abcdef", "http://a")], rnd := fun i => i }
        { method := "GET", path := "/shorten", body := "not json" } =
      some (Response.httpError "Only POST method is allowed" StatusMethodNotAllowed,
        { rows := [("abcdef", "http://a")], rnd := fun i => i }) ∧
    (Response.httpError "Only POST method is allowed" StatusMethodNotAllowed).status = 405 :=
  shorten_non_post_is_405 (fun _ => Except.error "invalid character") (fun _ => none) 0
    { rows := [("abcdef", "http://a")], rnd := fun i => i }
    { method := "GET", path := "/shorten", body := "not json" } (by decide)

/-- Any answer of `shortenHandler` either leaves the state as it was, with an
error status, or is the 200 answer after appending one row under a fresh key. -/
theorem shortenHandler_some (dec : String → Except String requestBody)
    (faults : Nat → Option String) (fuel : Nat) (w w' : World) (r : Request)
    (resp : Response) (h : shortenHandler dec faults fuel w r = some (resp, w')) :
    (w' = w ∧ (resp.status = StatusMethodNotAllowed ∨ resp.status = StatusBadRequest)) ∨
    (resp.status = StatusOK ∧ r.method = MethodPost ∧
      ∃ code u, dec r.body = Except.ok { URL := u } ∧ HasPrefix u "http" = true ∧
        resp = Response.json { ShortURL := baseURL ++ code } ∧
        isKey w.rows code = false ∧ w'.rows = w.rows ++ [(code, u)]) := by
  by_cases hm : r.method = MethodPost
  · cases hd : dec r.body with
    | error e =>
      rw [shortenHandler_bad_body dec faults fuel w r hm (Or.inl ⟨e, hd⟩)] at h
      simp only [Option.some.injEq, Prod.mk.injEq] at h
      exact Or.inl ⟨h.2.symm, Or.inr (by rw [← h.1]; rfl)⟩
    | ok q =>
      cases hp : HasPrefix q.URL "http" with
      | false =>
        rw [shortenHandler_bad_body dec faults fuel w r hm (Or.inr ⟨q, hd, hp⟩)] at h
        simp only [Option.some.injEq, Prod.mk.injEq] at h
        exact Or.inl ⟨h.2.symm, Or.inr (by rw [← h.1]; rfl)⟩
      | true =>
        obtain ⟨code, hl, hresp⟩ :=
          shortenHandler_valid_some dec faults fuel w r q.URL hm hd hp _ _ h
        obtain ⟨hk, hrows⟩ := shortenLoop_some fuel faults w q.URL code w' hl
        exact Or.inr ⟨by rw [hresp]; rfl, hm, code, q.URL, rfl, hp, hresp, hk, hrows⟩
  · rw [shortenHandler_not_post dec faults fuel w r hm] at h
    simp only [Option.some.injEq, Prod.mk.injEq] at h
    exact Or.inl ⟨h.2.symm, Or.inl (by rw [← h.1]; rfl)⟩

/-- C8: mappings are never updated or deleted.  For every state, every request
(whatever its method, body or path) and every behaviour of the storage engine:
whenever `shortenHandler` answers, every row of the table before the request is
a row afterwards and every code that resolved to `u` still resolves to `u`; an
answer with status 200 has appended exactly one row, under a code that was not
a key, and any other answer has left the table as it was; `redirectHandler`
leaves the whole state unchanged. -/
theorem mappings_never_updated_or_deleted (dec : String → Except String requestBody)
    (faults : Nat → Option String) (fault : Option String) (fuel : Nat) (w : World)
    (r : Request) :
    (∀ resp w', shortenHandler dec faults fuel w r = some (resp, w') →
      (∀ row, row ∈ w.rows → row ∈ w'.rows) ∧
      (∀ c u, selectURL w.rows c = some u → selectURL w'.rows c = some u) ∧
      (resp.status = StatusOK →
        ∃ c u, isKey w.rows c = false ∧ w'.rows = w.rows ++ [(c, u)]) ∧
      (resp.status ≠ StatusOK → w'.rows = w.rows)) ∧
    (redirectHandler fault w r).2 = w := by
  constructor
  · intro resp w' h
    rcases shortenHandler_some dec faults fuel w w' r resp h with
      ⟨hw, hst⟩ | ⟨hst, _, code, u, _, _, _, hk, hrows⟩
    · subst hw
      refine ⟨fun _ hrow => hrow, fun _ _ hsel => hsel, ?_, fun _ => rfl⟩
      intro h200
      rcases hst with h405 | h400
      · rw [h405] at h200; exact absurd h200 (by decide)
      · rw [h400] at h200; exact absurd h200 (by decide)
    · refine ⟨?_, ?_, fun _ => ⟨code, u, hk, hrows⟩, fun hne => absurd hst hne⟩
      · intro row hrow
        rw [hrows]
        exact List.mem_append_left _ hrow
      · intro c v hsel
        rw [hrows]
        exact selectURL_append_left _ _ _ _ hsel
  · unfold redirectHandler
    simp only []
    cases h : (getOriginalURL fault w.rows (TrimPrefix r.path "/")).2 <;> rfl

theorem mappings_never_updated_or_deleted_witness :
    (shortenHandler (fun _ => Except.ok { URL := "http://b" }) (fun _ => none) 2
        { rows := [("abcdef", "http://a")], rnd := fun i => i }
        { method := "POST", path := "/shorten", body := "\x7b\"url\":\"http://b\"\x7d" }).map
      (fun p => (p.1, p.2.rows)) =
      some (Response.json { ShortURL := "http://localhost:8080/ghijkl" },
        [("abcdef", "http://a"), ("ghijkl", "http://b")]) ∧
    (redirectHandler none { rows := [("abcdef", "http://a")], rnd := fun i => i }
        { method := "GET", path := "/abcdef", body := "" }).2 =
      { rows := [("abcdef", "http://a")], rnd := fun i => i } :=
  ⟨by decide,
   (mappings_never_updated_or_deleted (fun _ => Except.ok { URL := "http://b" })
      (fun _ => none) none 2 { rows := [("abcdef", "http://a")], rnd := fun i => i }
      { method := "GET", path := "/abcdef", body := "" }).2⟩

/-- C10: with the random source read as the sequence of candidate codes
`candidate w.rnd 0, candidate w.rnd 1, ...` and a storage engine that reports no
failure: for every state and every POST whose body decodes to a URL `u`
beginning with "http", if some candidate is not a key of the table, then there
is a least such index `k`, and with any fuel above `k` the handler terminates,
answers 200 with `short_url = baseURL ++ candidate k`, and the table afterwards
is the table before followed by the single row `(candidate k, u)`; the
collisions on the earlier candidates leave no trace in the answer or the
table. -/
theorem shorten_returns_first_fresh_candidate (dec : String → Except String requestBody)
    (faults : Nat → Option String) (w : World) (r : Request) (u : String)
    (hm : r.method = MethodPost) (hd : dec r.body = Except.ok { URL := u })
    (hp : HasPrefix u "http" = true)
    (hflt : ∀ j, faults j = none)
    (hex : ∃ k, isKey w.rows (candidate w.rnd k) = false) :
    ∃ k, isKey w.rows (candidate w.rnd k) = false ∧
      (∀ j, j < k → isKey w.rows (candidate w.rnd j) = true) ∧
      ∀ fuel, k < fuel →
        shortenHandler dec faults fuel w r =
          some (Response.json { ShortURL := baseURL ++ candidate w.rnd k },
            { rows := w.rows ++ [(candidate w.rnd k, u)],
              rnd := fun i => w.rnd (i + shortURLLen * (k + 1)) }) ∧
        (Response.json { ShortURL := baseURL ++ candidate w.rnd k }).status = 200 := by
  classical
  refine ⟨Nat.find hex, Nat.find_spec hex, ?_, ?_⟩
  · intro j hj
    have := Nat.find_min hex hj
    simpa using this
  · intro fuel hfuel
    have hl := shortenLoop_first (Nat.find hex) fuel faults w u hfuel (hflt _)
      (Nat.find_spec hex) (fun j hj hc => Nat.find_min hex hj hc.2)
    rw [shortenHandler_valid dec faults fuel w r u hm hd hp, hl]
    exact ⟨rfl, rfl⟩

theorem shorten_returns_first_fresh_candidate_witness :
    ∃ k, isKey [("abcdef", "http://old")] (candidate (fun i => i) k) = false ∧
      (∀ j, j < k → isKey [("abcdef", "http://old")] (candidate (fun i => i) j) = true) ∧
      ∀ fuel, k < fuel →
        shortenHandler (fun _ => Except.ok { URL := "http://a" }) (fun _ => none) fuel
            { rows := [("abcdef", "http://old")], rnd := fun i => i }
            { method := "POST", path := "/shorten", body := "\x7b\"url\":\"http://a\"\x7d" } =
          some (Response.json { ShortURL := baseURL ++ candidate (fun i => i) k },
            { rows := [("abcdef", "http://old")] ++ [(candidate (fun i => i) k, "http://a")],
              rnd := fun i => (fun i => i) (i + shortURLLen * (k + 1)) }) ∧
        (Response.json { ShortURL := baseURL ++ candidate (fun i => i) k }).status = 200 :=
  shorten_returns_first_fresh_candidate (fun _ => Except.ok { URL := "http://a" })
    (fun _ => none) { rows := [("abcdef", "http://old")], rnd := fun i => i }
    { method := "POST", path := "/shorten", body := "\x7b\"url\":\"http://a\"\x7d" }
    "http://a" rfl rfl (by decide) (fun _ => rfl) ⟨1, by decide⟩

/-! ## Storage failures -/

/-- C6, as the claim states it, fails: the first insert of this request meets a
driver failure that is not a uniqueness conflict (the table is empty), and the
handler neither aborts nor reports a server error: it goes round again and
answers 200 with the second code. -/
theorem shorten_retries_after_storage_failure :
    (insertURL (some "disk I/O error") [] "abcdef" "http://a").1 =
      some (DbError.storage "disk I/O error") ∧
    (shortenHandler (fun _ => Except.ok { URL := "http://a" })
        (fun j => if j = 0 then some "disk I/O error" else none) 2
        { rows := [], rnd := fun i => i }
        { method := "POST", path := "/shorten", body := "\x7b\"url\":\"http://a\"\x7d" }).map
      (fun p => (p.1, p.1.status, p.2.rows)) =
      some (Response.json { ShortURL := "http://localhost:8080/ghijkl" }, 200,
        [("ghijkl", "http://a")]) := by
  decide

/-- C6, amended: when an insert fails with any error, a uniqueness conflict or
any other storage failure, the loop of `shortenHandler` drops the error, leaves
the table as it was and goes round again with a newly generated code; and no
answer of `shortenHandler` has a 5xx status. -/
theorem shorten_retries_on_any_insert_error (dec : String → Except String requestBody)
    (faults : Nat → Option String) (fuel : Nat) (w : World) (r : Request) (url : String)
    (e : DbError)
    (h : (insertURL (faults 0) w.rows (generateShortCode w.rnd).1 url).1 = some e) :
    shortenLoop (fuel + 1) faults w url =
      shortenLoop fuel (fun j => faults (j + 1))
        { rows := w.rows, rnd := (generateShortCode w.rnd).2 } url ∧
    (∀ resp w', shortenHandler dec faults fuel w r = some (resp, w') → resp.status < 500) := by
  refine ⟨shortenLoop_succ_err fuel faults w url e h, ?_⟩
  · intro resp w' hs
    rcases shortenHandler_some dec faults fuel w w' r resp hs with
      ⟨_, h405 | h400⟩ | ⟨h200, _⟩
    · rw [h405]; decide
    · rw [h400]; decide
    · rw [h200]; decide

theorem shorten_retries_on_any_insert_error_witness :
    shortenLoop (1 + 1) (fun j => if j = 0 then some "disk I/O error" else none)
        { rows := [], rnd := fun i => i } "http://a" =
      shortenLoop 1 (fun j => (fun j => if j = 0 then some "disk I/O error" else none) (j + 1))
        { rows := [], rnd := (generateShortCode (fun i => i)).2 } "http://a" ∧
    (∀ resp w', shortenHandler (fun _ => Except.ok { URL := "http://a" })
        (fun j => if j = 0 then some "disk I/O error" else none) 1
        { rows := [], rnd := fun i => i }
        { method := "POST", path := "/shorten", body := "\x7b\"url\":\"http://a\"\x7d" } =
          some (resp, w') → resp.status < 500) :=
  shorten_retries_on_any_insert_error (fun _ => Except.ok { URL := "http://a" })
    (fun j => if j = 0 then some "disk I/O error" else none) 1
    { rows := [], rnd := fun i => i }
    { method := "POST", path := "/shorten", body := "\x7b\"url\":\"http://a\"\x7d" }
    "http://a" (DbError.storage "disk I/O error") rfl

/-- C7, as the claim states it, fails: the code "abcdef" is a key of the table,
the lookup meets a driver failure other than "no rows", and the handler answers
404, not a 5xx status. -/
theorem redirect_storage_failure_is_404 :
    isKey [("abcdef", "http://a")] "abcdef" = true ∧
    getOriginalURL (some "database is locked") [("abcdef", "http://a")] "abcdef" =
      ("", some (DbError.storage "database is locked")) ∧
    (redirectHandler (some "database is locked")
        { rows := [("abcdef", "http://a")], rnd := fun i => i }
        { method := "GET", path := "/abcdef", body := "" }).1 =
      Response.httpError "URL not found" 404 := by
  decide

/-- C7, amended: `redirectHandler` answers 404 whenever the lookup returns an
error, be it "no rows" or any other storage failure, also for a code that is a
key of the table; it answers the 302 redirect to the stored URL exactly when
the lookup returns no error; it never answers with a 5xx status. -/
theorem redirect_any_lookup_error_is_404 (fault : Option String) (w : World) (r : Request) :
    ((getOriginalURL fault w.rows (TrimPrefix r.path "/")).2 ≠ none →
      (redirectHandler fault w r).1 = Response.httpError "URL not found" StatusNotFound) ∧
    ((getOriginalURL fault w.rows (TrimPrefix r.path "/")).2 = none →
      ∃ u, selectURL w.rows (TrimPrefix r.path "/") = some u ∧
        (redirectHandler fault w r).1 = Response.redirect u StatusFound) ∧
    (∀ msg, fault = some msg → (redirectHandler fault w r).1.status = 404) ∧
    (redirectHandler fault w r).1.status < 500 := by
  cases fault with
  | some msg =>
    simp [redirectHandler, getOriginalURL, Response.status, StatusNotFound]
  | none =>
    cases hs : selectURL w.rows (TrimPrefix r.path "/") with
    | none => simp [redirectHandler, getOriginalURL, hs, Response.status, StatusNotFound]
    | some u => simp [redirectHandler, getOriginalURL, hs, Response.status, StatusFound]

end URLShortener
